import Mathlib

/-!
Shallow embedding of the chatrelaybot relay core (src/main.go) and proofs
about it.  Text is modelled as `List Char` inside the string helpers
(mirroring Go's byte/rune-level `strings` functions) and as `String` at the
component boundaries.  The worker pool is modelled as a labelled transition
system; the backend client's retry loop, the response normalizer and the
dispatcher functions are modelled as pure functions producing the sequence
of externally visible events (connection attempts, sleeps, sink posts).
-/

namespace ChatRelay

/-- Whitespace predicate of Go's `unicode.IsSpace` restricted to the
characters it recognizes in the Latin-1 range: tab, newline, vertical tab,
form feed, carriage return, space, NEL (U+0085) and NBSP (U+00A0). -/
def isSpace (c : Char) : Bool :=
  c = ' ' || c = '\t' || c = '\n' || (c = Char.ofNat 11) || (c = Char.ofNat 12) ||
    c = '\r' || (c = Char.ofNat 0x85) || (c = Char.ofNat 0xA0)

/-- Go `strings.TrimSpace`: drop leading and trailing whitespace. -/
def trimSpace (s : List Char) : List Char :=
  ((s.dropWhile isSpace).reverse.dropWhile isSpace).reverse

/-- Does `s` start with the pattern `p`?  (Go `strings.HasPrefix`.) -/
def startsWith : List Char → List Char → Bool
  | _, [] => true
  | [], _ :: _ => false
  | c :: cs, p :: ps => c = p && startsWith cs ps

/-- Left-to-right scan of Go `strings.ReplaceAll`, structurally recursive on
a fuel argument; every step consumes at least one character of the scanned
list, so fuel equal to the list's length (supplied by `replaceAll`) is
always enough and the fuel-exhausted branch is unreachable. -/
def replaceAllF (old new : List Char) : Nat → List Char → List Char
  | _, [] => []
  | 0, s => s
  | fuel + 1, c :: rest =>
    if 0 < old.length ∧ startsWith (c :: rest) old then
      new ++ replaceAllF old new fuel ((c :: rest).drop old.length)
    else
      c :: replaceAllF old new fuel rest

/-- Go `strings.ReplaceAll s old new`: replace every non-overlapping
instance of `old` in `s` by `new`, scanning left to right.  (Go's special
case for an empty `old` never arises in this program; here an empty `old`
leaves `s` unchanged.) -/
def replaceAll (s old new : List Char) : List Char :=
  replaceAllF old new s.length s

/-- Scan of Go `strings.SplitAfter` for a non-empty separator: split the
list into pieces after each non-overlapping instance of `sep`, keeping the
separator at the end of the preceding piece; the accumulator holds the
current piece reversed.  Structurally recursive on a fuel argument that
`splitAfter` instantiates with the scanned list's length, which is always
enough since every step consumes at least one character. -/
def splitAfterAux (sep : List Char) : Nat → List Char → List Char → List (List Char)
  | _, [], acc => [acc.reverse]
  | 0, s, acc => [acc.reverse ++ s]
  | fuel + 1, c :: rest, acc =>
    if 0 < sep.length ∧ startsWith (c :: rest) sep then
      (acc.reverse ++ sep) :: splitAfterAux sep fuel ((c :: rest).drop sep.length) []
    else
      splitAfterAux sep fuel rest (c :: acc)

/-- Go `strings.SplitAfter`. -/
def splitAfter (s sep : List Char) : List (List Char) :=
  splitAfterAux sep s.length s []

/-- String-level `strings.TrimSpace`. -/
def trimSpaceStr (s : String) : String :=
  ⟨trimSpace s.data⟩

/-- String-level `strings.ReplaceAll`. -/
def replaceAllStr (s old new : String) : String :=
  ⟨replaceAll s.data old.data new.data⟩

/-- String-level `strings.SplitAfter`. -/
def splitAfterStr (s sep : String) : List String :=
  (splitAfter s.data sep.data).map fun l => ⟨l⟩

/-- Decoded form of one backend record (Go struct `ChatResponse`,
src/main.go lines 105-112): `event` is the wire kind (`message_part` for a
fragment, `stream_end` for the terminal record), `text` the fragment text
(`text_chunk`), `status` the terminal status, `full` the single-document
body (`full_response`). -/
structure ChatResponse where
  id : Nat := 0
  event : String := ""
  text : String := ""
  status : String := ""
  full : String := ""
  error : String := ""
deriving DecidableEq, Repr

/-- The fields of `slackevents.AppMentionEvent` that the relay reads
(`User`, `Channel`, `Text`, `BotID`). -/
structure MentionEvent where
  user : String := ""
  channel : String := ""
  text : String := ""
  botID : String := ""
deriving DecidableEq, Repr

/-- The fields of `slackevents.MessageEvent` that the relay reads
(`User`, `Channel`, `Text`, `BotID`, `ChannelType`). -/
structure DMEvent where
  user : String := ""
  channel : String := ""
  text : String := ""
  botID : String := ""
  channelType : String := ""
deriving DecidableEq, Repr

/-- One HTTP response as `processTask` observes it: the status code, the
`Content-Type` header, and the body seen through the two parses the code
may apply to it.  `streamView` is the per-scanned-line outcome of the
`data: `-check plus `json.Unmarshal` (one entry per line of the body that
the scanner yields; `none` for a line that is not a data line or whose
record fails to decode); `singleView` is the outcome of decoding the whole
body as one JSON document. -/
structure HttpResp where
  status : Nat := 200
  contentType : String := ""
  streamView : List (Option ChatResponse) := []
  singleView : Option ChatResponse := none

/-- Externally visible events of one task execution: a connection attempt
(`http.DefaultClient.Do`), a `time.Sleep` of the given milliseconds, or a
sink call (`api.PostMessageContext`) with channel and text. -/
inductive Ev where
  | connAttempt
  | sleepMs (ms : Nat)
  | send (channel text : String)
deriving DecidableEq, Repr

/-- Is the shared context cancelled at time `t` (milliseconds since the
task started)?  `cancelAt = none` means the context is never cancelled. -/
def isCancelled (cancelAt : Option Nat) (t : Nat) : Bool :=
  match cancelAt with
  | none => false
  | some c => c ≤ t

/-- The retry loop of `processTask` (src/main.go lines 204-212):
`for attempt := 0; attempt < 3; attempt++` issues the request; on success
it breaks, on failure it sleeps `(attempt+1) * time.Second` and loops.
`remaining` counts the loop iterations still allowed (`3 - attempt`), so
the recursion is structural; `t` is the elapsed time in milliseconds.  An
attempt made at or after the cancellation time fails with the context's
error (the request carries the context via `http.NewRequestWithContext`);
the sleeps are plain `time.Sleep` and always run to completion.  Returns
the event trace, the elapsed time, and the response of the last attempt
(`none` when every attempt failed). -/
def attemptLoop (cancelAt : Option Nat) (outcome : Nat → Option HttpResp) :
    Nat → Nat → Nat → List Ev × Nat × Option HttpResp
  | 0, _, t => ([], t, none)
  | remaining + 1, attempt, t =>
    match (if isCancelled cancelAt t then none else outcome attempt) with
    | some resp => ([Ev.connAttempt], t, some resp)
    | none =>
      let d := (attempt + 1) * 1000
      let rec_ := attemptLoop cancelAt outcome remaining (attempt + 1) (t + d)
      (Ev.connAttempt :: Ev.sleepMs d :: rec_.1, rec_.2.1, rec_.2.2)

/-- The `text/event-stream` branch of `processTask` (src/main.go lines
223-241): for each scanned line, first check `ctx.Done()` (return if
cancelled), then if the line decodes to a record with event
`message_part`, post its text and sleep 500ms; every other line — terminal
records, malformed records, non-data lines — is skipped and the scan
continues. -/
def streamLoop (cancelAt : Option Nat) (channel : String) :
    List (Option ChatResponse) → Nat → List Ev
  | [], _ => []
  | line :: rest, t =>
    if isCancelled cancelAt t then []
    else
      match line with
      | some msg =>
        if msg.event = "message_part" then
          Ev.send channel msg.text :: Ev.sleepMs 500 :: streamLoop cancelAt channel rest (t + 500)
        else streamLoop cancelAt channel rest t
      | none => streamLoop cancelAt channel rest t

/-- The single-document branch of `processTask` (src/main.go lines
242-254): for each chunk of `strings.SplitAfter(result.Full, ". ")`, trim
it; if non-empty, post it and sleep 500ms. -/
def singleLoop (channel : String) : List String → List Ev
  | [] => []
  | chunk :: rest =>
    let c := trimSpaceStr chunk
    if c ≠ "" then Ev.send channel c :: Ev.sleepMs 500 :: singleLoop channel rest
    else singleLoop channel rest

/-- The body of `processTask` (src/main.go lines 191-255): run the retry
loop; if every attempt failed, post the single fallback message; otherwise
branch on the response's `Content-Type`: the stream branch scans the body
lines, the default branch decodes the body as one JSON document and, only
when decoding succeeds, splits `full_response` after each `". "` and posts
the trimmed non-empty chunks.  The result is the task's event trace. -/
def processTask (cancelAt : Option Nat) (outcome : Nat → Option HttpResp)
    (ev : MentionEvent) (_query : String) : List Ev :=
  let r := attemptLoop cancelAt outcome 3 0 0
  match r.2.2 with
  | none => r.1 ++ [Ev.send ev.channel "Service unavailable, please try later"]
  | some resp =>
    r.1 ++
      (match resp.contentType with
       | "text/event-stream" => streamLoop cancelAt ev.channel resp.streamView r.2.1
       | _ =>
         match resp.singleView with
         | some result => singleLoop ev.channel (splitAfterStr result.full ". ")
         | none => [])

/-- `processMention` (src/main.go lines 168-189): compute
`strings.TrimSpace(strings.ReplaceAll(ev.Text, "<@"+ev.BotID+">", ""))`;
if it is empty, return without submitting (the event is dropped); else
submit a task for that query.  The result is the submitted query, `none`
when the event is dropped. -/
def processMention (ev : MentionEvent) : Option String :=
  let cleanQuery := trimSpaceStr (replaceAllStr ev.text ("<@" ++ ev.botID ++ ">") "")
  if cleanQuery = "" then none else some cleanQuery

/-- `processDirectMessage` (src/main.go lines 337-364): drop when the
event has a non-empty `BotID` or empty `Text`; drop when `ChannelType` is
not `"im"`; otherwise submit a task whose query is the raw `ev.Text`.  The
result is the submitted query, `none` when the event is dropped. -/
def processDirectMessage (ev : DMEvent) : Option String :=
  if ev.botID ≠ "" ∨ ev.text = "" then none
  else if ev.channelType ≠ "im" then none
  else some ev.text

/-- The texts posted to the sink in an event trace, in order. -/
def postedTexts : List Ev → List String
  | [] => []
  | Ev.send _ text :: rest => text :: postedTexts rest
  | _ :: rest => postedTexts rest

/-- The number of connection attempts in an event trace. -/
def countAttempts : List Ev → Nat
  | [] => 0
  | Ev.connAttempt :: rest => countAttempts rest + 1
  | _ :: rest => countAttempts rest

/-- Modelled from the spec's words (§4.4 Response Normalizer, stream case),
for comparison with the code's behaviour: emit one fragment per record of
kind fragment (`message_part`), in arrival order; on the first terminal
record (`stream_end`) stop iterating and emit no fragment for it;
malformed records are skipped and the stream continues. -/
def specNormalizeStream : List (Option ChatResponse) → List String
  | [] => []
  | some msg :: rest =>
    if msg.event = "message_part" then msg.text :: specNormalizeStream rest
    else if msg.event = "stream_end" then []
    else specNormalizeStream rest
  | none :: rest => specNormalizeStream rest

/-- Modelled from the spec: the `PoolClosed` error value that §4.2 and §7
of the spec describe for a post-shutdown submission ("fails with
`PoolClosed`").  The code defines no such value; it exists here only to
compare the spec's description with the code's behaviour. -/
inductive PoolError where
  | poolClosed
deriving DecidableEq, Repr

/-- How one call into the pool ends, distinguishing a normal return, an
error value returned to the caller, and a run-time panic (which, being
unrecovered anywhere in the program, crashes the whole process). -/
inductive CallOutcome where
  | ok
  | errReturned (e : PoolError)
  | panicCrash (msg : String)
deriving DecidableEq, Repr

/-- The task channel of `WorkerPool` (src/main.go lines 46-49), reduced to
the one bit a `Submit`/`Shutdown` interaction observes: whether
`close(p.tasks)` has run. -/
structure PoolChan where
  closed : Bool
deriving DecidableEq, Repr

/-- `WorkerPool.Submit` (src/main.go lines 69-71) is `p.tasks <- task`:
it returns no error value; by Go's channel semantics a send on a closed
channel panics with "send on closed channel", and nothing in the program
recovers it. -/
def poolSubmit (p : PoolChan) : CallOutcome :=
  if p.closed then CallOutcome.panicCrash "send on closed channel" else CallOutcome.ok

/-- `WorkerPool.Shutdown` (src/main.go lines 73-76) closes the task
channel (and waits for the workers, which this one-bit model omits). -/
def poolShutdown (_p : PoolChan) : PoolChan :=
  { closed := true }

/-- State of the worker pool's labelled transition system (src/main.go
lines 46-76).  Tasks are identified by `Nat`.  `accepting` is true until
`close(p.tasks)` runs; `queue` is the buffered channel content; `running`
are the tasks currently held by workers (`for task := range p.tasks`);
`done` lists completed tasks in completion order; `submitted` is the ghost
list of all tasks ever accepted by `Submit`, in submission order. -/
structure PoolSt where
  accepting : Bool
  queue : List Nat
  running : List Nat
  done : List Nat
  submitted : List Nat
deriving DecidableEq, Repr

/-- One transition of the pool with `N` workers: `submit` appends to the
queue while the channel is open (`Submit`, line 70); `close` closes the
channel (`Shutdown`, line 74); `take` lets an idle worker — fewer than `N`
tasks are running — dequeue the head task (`range p.tasks`, line 64);
`finish` lets a worker complete its task (`task()`, line 65). -/
inductive PoolStep (N : Nat) : PoolSt → PoolSt → Prop where
  | submit (s : PoolSt) (t : Nat) :
      s.accepting = true →
      PoolStep N s { s with queue := s.queue ++ [t], submitted := s.submitted ++ [t] }
  | close (s : PoolSt) :
      PoolStep N s { s with accepting := false }
  | take (s : PoolSt) (t : Nat) (q : List Nat) :
      s.queue = t :: q → s.running.length < N →
      PoolStep N s { s with queue := q, running := t :: s.running }
  | finish (s : PoolSt) (t : Nat) :
      t ∈ s.running →
      PoolStep N s { s with running := s.running.erase t, done := s.done ++ [t] }

/-- Reachability in the pool transition system. -/
def PoolReach (N : Nat) : PoolSt → PoolSt → Prop :=
  Relation.ReflTransGen (PoolStep N)

/-- The pool right after `NewWorkerPool`: open channel, nothing queued,
running, done or submitted. -/
def poolInit : PoolSt :=
  ⟨true, [], [], [], []⟩

/-- `Shutdown` has returned: the channel is closed, the buffered queue is
drained (each worker's `range` loop has ended) and no worker still holds a
task (`p.wg.Wait()` returned). -/
def poolReturned (s : PoolSt) : Prop :=
  s.accepting = false ∧ s.queue = [] ∧ s.running = []

end ChatRelay

namespace ChatRelay

/-- Every pool transition preserves the accounting permutation: queued,
running and completed tasks together are a permutation of the submitted
tasks. -/
theorem poolStep_perm {N : Nat} {s s' : PoolSt} (h : PoolStep N s s')
    (hperm : (s.queue ++ s.running ++ s.done).Perm s.submitted) :
    (s'.queue ++ s'.running ++ s'.done).Perm s'.submitted := by
  rw [← Multiset.coe_eq_coe] at hperm ⊢
  cases h with
  | submit t hacc =>
    simp only [← Multiset.coe_add] at hperm ⊢
    rw [← hperm]
    abel
  | close =>
    exact hperm
  | take t q hq hlt =>
    rw [hq] at hperm
    rw [show (t :: s.running : List Nat) = [t] ++ s.running from rfl]
    rw [show (t :: q : List Nat) = [t] ++ q from rfl] at hperm
    simp only [← Multiset.coe_add] at hperm ⊢
    rw [← hperm]
    abel
  | finish t ht =>
    have hr : (s.running : Multiset Nat) = ↑[t] + ↑(s.running.erase t) :=
      (Multiset.coe_eq_coe.mpr (List.perm_cons_erase ht)).trans (Multiset.coe_add [t] (s.running.erase t)).symm
    simp only [← Multiset.coe_add] at hperm ⊢
    rw [hr] at hperm
    rw [← hperm]
    abel

/-- The accounting permutation holds in every state reachable from the
fresh pool. -/
theorem poolReach_perm {N : Nat} {s : PoolSt} (h : PoolReach N poolInit s) :
    (s.queue ++ s.running ++ s.done).Perm s.submitted := by
  induction h with
  | refl => exact List.Perm.refl _
  | tail _ hstep ih => exact poolStep_perm hstep ih

/-- Once the channel is closed, no transition reopens it or accepts a new
submission. -/
theorem poolStep_closed {N : Nat} {s s' : PoolSt} (h : PoolStep N s s')
    (hc : s.accepting = false) :
    s'.submitted = s.submitted ∧ s'.accepting = false := by
  cases h with
  | submit t hacc => rw [hacc] at hc; cases hc
  | close => exact ⟨rfl, rfl⟩
  | take t q hq hlt => exact ⟨rfl, hc⟩
  | finish t ht => exact ⟨rfl, hc⟩

end ChatRelay

namespace ChatRelay

/-- If a list already has no leading `p`-elements, trimming its tail end
leaves it without leading `p`-elements too. -/
theorem dropWhile_of_rdropWhile_self {p : Char → Bool} {m : List Char}
    (hm : m.dropWhile p = m) :
    (List.rdropWhile p m).dropWhile p = List.rdropWhile p m := by
  rcases h : List.rdropWhile p m with _ | ⟨c, rest⟩
  · rfl
  · have hpre : List.rdropWhile p m <+: m := List.rdropWhile_prefix p m
    rw [h] at hpre
    obtain ⟨tail, htail⟩ := hpre
    have h0 := List.dropWhile_eq_self_iff.mp hm
    rw [← htail] at h0
    have hc : ¬ p c = true := by simpa using h0 (by simp)
    simp [List.dropWhile_cons, hc]

/-- `trimSpace` is idempotent. -/
theorem trimSpace_idem (s : List Char) : trimSpace (trimSpace s) = trimSpace s := by
  have hx : (List.rdropWhile isSpace (s.dropWhile isSpace)).dropWhile isSpace
      = List.rdropWhile isSpace (s.dropWhile isSpace) :=
    dropWhile_of_rdropWhile_self (List.dropWhile_idempotent isSpace s)
  calc trimSpace (trimSpace s)
      = List.rdropWhile isSpace
          ((List.rdropWhile isSpace (s.dropWhile isSpace)).dropWhile isSpace) := rfl
    _ = List.rdropWhile isSpace (List.rdropWhile isSpace (s.dropWhile isSpace)) := by rw [hx]
    _ = List.rdropWhile isSpace (s.dropWhile isSpace) :=
        List.rdropWhile_idempotent isSpace _
    _ = trimSpace s := rfl

/-- `trimSpaceStr` is idempotent. -/
theorem trimSpaceStr_idem (s : String) : trimSpaceStr (trimSpaceStr s) = trimSpaceStr s :=
  congrArg String.mk (trimSpace_idem s.data)

/-- `countAttempts` distributes over append. -/
theorem countAttempts_append (a b : List Ev) :
    countAttempts (a ++ b) = countAttempts a + countAttempts b := by
  induction a with
  | nil => simp [countAttempts]
  | cons e rest ih =>
    cases e with
    | connAttempt => simp [countAttempts, ih]; omega
    | sleepMs ms => simp [countAttempts, ih]
    | send c x => simp [countAttempts, ih]

/-- The stream branch makes no connection attempts. -/
theorem countAttempts_streamLoop (c : Option Nat) (ch : String)
    (lines : List (Option ChatResponse)) (t : Nat) :
    countAttempts (streamLoop c ch lines t) = 0 := by
  induction lines generalizing t with
  | nil => rfl
  | cons line rest ih =>
    cases hc : isCancelled c t
    · cases line with
      | some m =>
        by_cases hm : m.event = "message_part" <;>
          simp [streamLoop, hc, hm, countAttempts, ih]
      | none => simp [streamLoop, hc, countAttempts, ih]
    · simp [streamLoop, hc, countAttempts]

/-- The single-document branch makes no connection attempts. -/
theorem countAttempts_singleLoop (ch : String) (chunks : List String) :
    countAttempts (singleLoop ch chunks) = 0 := by
  induction chunks with
  | nil => rfl
  | cons chunk rest ih =>
    by_cases hc : trimSpaceStr chunk = "" <;> simp [singleLoop, hc, countAttempts, ih]

end ChatRelay

namespace ChatRelay

/-- C1 counterexample: the stream branch does not stop at the first
terminal record.  On the record sequence `[terminal, fragment "z"]` the
code emits the fragment `"z"` that arrives after the terminal record,
while the spec's normalization (stop at the terminal record) emits
nothing. -/
theorem stream_terminal_not_stop_cex :
    postedTexts (processTask none
        (fun _ => some { contentType := "text/event-stream",
                         streamView := [some { event := "stream_end", status := "done" },
                                        some { event := "message_part", text := "z" }] })
        { channel := "C" } "q") = ["z"] ∧
      specNormalizeStream
        [some { event := "stream_end", status := "done" },
         some { event := "message_part", text := "z" }] = [] ∧
      (["z"] : List String) ≠ [] := by
  refine ⟨by decide, by decide, by decide⟩

/-- C1 amended: for every streamed response the code emits one outbound
fragment per record whose kind is `message_part`, in arrival order; a
terminal (`stream_end`) record — like any other non-fragment or malformed
record — emits nothing but does not stop the iteration, which continues to
the end of the stream.  In particular the records
`[fragment "x", fragment "y", terminal]` yield exactly `["x", "y"]`. -/
theorem stream_normalization_amended :
    (∀ (records : List (Option ChatResponse)) (ch : String) (t : Nat),
        postedTexts (streamLoop none ch records t) =
          records.filterMap (fun r =>
            match r with
            | some m => if m.event = "message_part" then some m.text else none
            | none => none)) ∧
      postedTexts (processTask none
        (fun _ => some { contentType := "text/event-stream",
                         streamView := [some { event := "message_part", text := "x" },
                                        some { event := "message_part", text := "y" },
                                        some { event := "stream_end", status := "done" }] })
        { channel := "C" } "q") = ["x", "y"] := by
  constructor
  · intro records ch t
    induction records generalizing t with
    | nil => rfl
    | cons line rest ih =>
      cases line with
      | some m =>
        by_cases hm : m.event = "message_part" <;>
          simp [streamLoop, isCancelled, postedTexts, hm, ih]
      | none => simp [streamLoop, isCancelled, postedTexts, ih]
  · decide

/-- C7: the single-document branch posts, in order, the chunks of
`strings.SplitAfter(full_text, ". ")` trimmed of whitespace, dropping the
chunks that are empty after trimming; in particular
`full_response = "A. B."` yields exactly the fragments `["A.", "B."]`. -/
theorem single_doc_normalization :
    (∀ (ch : String) (chunks : List String),
        postedTexts (singleLoop ch chunks) =
          (chunks.map trimSpaceStr).filter (fun c => c != "")) ∧
      postedTexts (processTask none
        (fun _ => some { contentType := "application/json",
                         singleView := some { full := "A. B." } })
        { channel := "C" } "q") = ["A.", "B."] := by
  constructor
  · intro ch chunks
    induction chunks with
    | nil => rfl
    | cons chunk rest ih =>
      by_cases hc : trimSpaceStr chunk = "" <;>
        simp [singleLoop, postedTexts, hc, ih]
  · decide

/-- C10: when the backend returns a non-stream response whose body fails
to decode as a JSON document, the task makes its one connection attempt
and then does nothing: no fragments, no fallback, zero sink calls. -/
theorem single_decode_failure_silent (ev : MentionEvent) (q : String) (r : HttpResp)
    (h1 : r.contentType ≠ "text/event-stream") (h2 : r.singleView = none) :
    processTask none (fun _ => some r) ev q = [Ev.connAttempt] ∧
      postedTexts (processTask none (fun _ => some r) ev q) = [] := by
  have key : processTask none (fun _ => some r) ev q =
      Ev.connAttempt ::
        (match r.contentType with
         | "text/event-stream" => streamLoop none ev.channel r.streamView 0
         | _ =>
           match r.singleView with
           | some result => singleLoop ev.channel (splitAfterStr result.full ". ")
           | none => []) := rfl
  rw [key]
  split
  · exact absurd (by assumption) h1
  · rw [h2]
    exact ⟨rfl, rfl⟩

/-- Witness for C10 at a concrete undecodable JSON response. -/
theorem single_decode_failure_silent_witness :
    processTask none
        (fun _ => some { contentType := "application/json", singleView := none })
        { channel := "C" } "q" = [Ev.connAttempt] ∧
      postedTexts (processTask none
        (fun _ => some { contentType := "application/json", singleView := none })
        { channel := "C" } "q") = [] :=
  single_decode_failure_silent { channel := "C" } "q"
    { contentType := "application/json", singleView := none } (by decide) rfl

end ChatRelay

namespace ChatRelay

/-- C2 counterexample: when every connection attempt fails, the trace
contains a third backoff sleep of 3 seconds after the last attempt, so the
claimed trace — sleeps only between attempts, none after the last — is not
the code's trace. -/
theorem retry_sleep_after_last_cex :
    processTask none (fun _ => none) { channel := "C" } "q" =
      [Ev.connAttempt, Ev.sleepMs 1000, Ev.connAttempt, Ev.sleepMs 2000,
       Ev.connAttempt, Ev.sleepMs 3000,
       Ev.send "C" "Service unavailable, please try later"] ∧
      processTask none (fun _ => none) { channel := "C" } "q" ≠
        [Ev.connAttempt, Ev.sleepMs 1000, Ev.connAttempt, Ev.sleepMs 2000,
         Ev.connAttempt, Ev.send "C" "Service unavailable, please try later"] := by
  refine ⟨by decide, by decide⟩

/-- C2 amended: when every connection attempt fails, the client makes
exactly 3 attempts with a backoff sleep of `(attempt_index + 1)` seconds
after every failed attempt — including 3 seconds after the last one — and
then posts exactly one "service unavailable" fallback fragment to the
originating channel, with no further attempts. -/
theorem retry_all_fail_trace (cancelAt : Option Nat) (outcome : Nat → Option HttpResp)
    (ev : MentionEvent) (query : String) (h : ∀ n, outcome n = none) :
    processTask cancelAt outcome ev query =
      [Ev.connAttempt, Ev.sleepMs 1000, Ev.connAttempt, Ev.sleepMs 2000,
       Ev.connAttempt, Ev.sleepMs 3000,
       Ev.send ev.channel "Service unavailable, please try later"] ∧
      countAttempts (processTask cancelAt outcome ev query) = 3 ∧
      postedTexts (processTask cancelAt outcome ev query) =
        ["Service unavailable, please try later"] := by
  have hnone : ∀ t a, (if isCancelled cancelAt t then none else outcome a)
      = (none : Option HttpResp) := by
    intro t a
    cases isCancelled cancelAt t <;> simp [h]
  have key : processTask cancelAt outcome ev query =
      [Ev.connAttempt, Ev.sleepMs 1000, Ev.connAttempt, Ev.sleepMs 2000,
       Ev.connAttempt, Ev.sleepMs 3000,
       Ev.send ev.channel "Service unavailable, please try later"] := by
    simp [processTask, attemptLoop, hnone]
  refine ⟨key, ?_, ?_⟩ <;> rw [key] <;> rfl

/-- Witness for C2 with the always-failing backend. -/
theorem retry_all_fail_trace_witness :
    processTask none (fun _ => none) { channel := "C" } "q" =
      [Ev.connAttempt, Ev.sleepMs 1000, Ev.connAttempt, Ev.sleepMs 2000,
       Ev.connAttempt, Ev.sleepMs 3000,
       Ev.send "C" "Service unavailable, please try later"] ∧
      countAttempts (processTask none (fun _ => none) { channel := "C" } "q") = 3 ∧
      postedTexts (processTask none (fun _ => none) { channel := "C" } "q") =
        ["Service unavailable, please try later"] :=
  retry_all_fail_trace none (fun _ => none) { channel := "C" } "q" (fun _ => rfl)

/-- C3 counterexample: with the context cancelled 500ms in — during the
first backoff sleep — the client does not abort: the trace still contains
all 3 connection attempts and the completed backoff sleeps of 2 and 3
seconds, so the attempt count is 3, not the 1 the claim implies. -/
theorem cancellation_ignored_cex :
    processTask (some 500) (fun _ => none) { channel := "C" } "q" =
      [Ev.connAttempt, Ev.sleepMs 1000, Ev.connAttempt, Ev.sleepMs 2000,
       Ev.connAttempt, Ev.sleepMs 3000,
       Ev.send "C" "Service unavailable, please try later"] ∧
      countAttempts (processTask (some 500) (fun _ => none) { channel := "C" } "q") = 3 ∧
      ¬ countAttempts (processTask (some 500) (fun _ => none) { channel := "C" } "q") ≤ 1 := by
  refine ⟨by decide, by decide, by decide⟩

/-- C3 amended: cancellation does not abort the retry sequence.  A
cancelled context only makes each remaining connection attempt fail
immediately; the loop still performs all 3 attempts, completes every
backoff sleep (1s, 2s and 3s), posts the fallback message, and processes
no response body.  With the context cancelled from the start this is the
full failure trace whatever the backend would have answered. -/
theorem cancelled_retry_still_runs (outcome : Nat → Option HttpResp)
    (ev : MentionEvent) (query : String) :
    processTask (some 0) outcome ev query =
      [Ev.connAttempt, Ev.sleepMs 1000, Ev.connAttempt, Ev.sleepMs 2000,
       Ev.connAttempt, Ev.sleepMs 3000,
       Ev.send ev.channel "Service unavailable, please try later"] := by
  have hnone : ∀ t a, (if isCancelled (some 0) t then none else outcome a)
      = (none : Option HttpResp) := by
    intro t a
    simp [isCancelled]
  simp [processTask, attemptLoop, hnone]

/-- C4 counterexample: a response with HTTP status 500 on a successful
connection is processed exactly like a success: its JSON body is decoded
and its chunks are posted as fragments — no response-level failure is
surfaced. -/
theorem non2xx_body_processed_cex :
    processTask none
        (fun _ => some { status := 500, contentType := "application/json",
                         singleView := some { full := "A. B." } })
        { channel := "C" } "q" =
      [Ev.connAttempt, Ev.send "C" "A.", Ev.sleepMs 500,
       Ev.send "C" "B.", Ev.sleepMs 500] ∧
      postedTexts (processTask none
        (fun _ => some { status := 500, contentType := "application/json",
                         singleView := some { full := "A. B." } })
        { channel := "C" } "q") = ["A.", "B."] ∧
      (["A.", "B."] : List String) ≠ [] := by
  refine ⟨by decide, by decide, by decide⟩

/-- C4 amended: a response that arrives over a successful connection is
never retried — the retry loop ends with that single attempt whatever the
status — but no response-level failure is surfaced either: `processTask`
never reads the status code (its trace is unchanged under any change of
status), and the body is processed by the normal content-type dispatch. -/
theorem non2xx_not_retried_status_ignored :
    (∀ (r : HttpResp) (s₁ s₂ : Nat) (ev : MentionEvent) (q : String),
        processTask none (fun _ => some { r with status := s₁ }) ev q =
          processTask none (fun _ => some { r with status := s₂ }) ev q) ∧
      (∀ (r : HttpResp) (ev : MentionEvent) (q : String),
        countAttempts (processTask none (fun _ => some r) ev q) = 1) := by
  constructor
  · intro r s₁ s₂ ev q
    rfl
  · intro r ev q
    have key : processTask none (fun _ => some r) ev q =
        Ev.connAttempt ::
          (match r.contentType with
           | "text/event-stream" => streamLoop none ev.channel r.streamView 0
           | _ =>
             match r.singleView with
             | some result => singleLoop ev.channel (splitAfterStr result.full ". ")
             | none => []) := rfl
    rw [key]
    simp only [countAttempts]
    split
    · simp [countAttempts_streamLoop]
    · split
      · simp [countAttempts_singleLoop]
      · rfl

end ChatRelay

namespace ChatRelay

/-- C5 counterexample: a mention event with no bot identifier
(`BotID = ""`) is not dropped — the code still submits a task — and the
mention token is removed everywhere in the text, not only in leading
position (`"hi <@B> there"` becomes `"hi  there"`). -/
theorem mention_strip_cex :
    processMention { text := "hello", botID := "" } = some "hello" ∧
      processMention { text := "hello", botID := "" } ≠ none ∧
      processMention { text := "hi <@B> there", botID := "B" } = some "hi  there" := by
  refine ⟨by decide, by decide, by decide⟩

/-- C5 amended: the dispatched query is obtained by removing every
occurrence of the token `"<@" + bot_id + ">"` from the text (anywhere in
it; when `bot_id` is empty the literal token `"<@>"` is removed) and
trimming whitespace, and the event is dropped with no task submitted
exactly when the resulting text is empty — whether or not a bot identifier
was present. -/
theorem mention_strip_amended :
    (∀ ev : MentionEvent,
        processMention ev = none ↔
          trimSpaceStr (replaceAllStr ev.text ("<@" ++ ev.botID ++ ">") "") = "") ∧
      (∀ (ev : MentionEvent) (q : String),
        processMention ev = some q →
          q = trimSpaceStr (replaceAllStr ev.text ("<@" ++ ev.botID ++ ">") "")) := by
  constructor
  · intro ev
    unfold processMention
    by_cases hc : trimSpaceStr (replaceAllStr ev.text ("<@" ++ ev.botID ++ ">") "") = ""
    · simp [hc]
    · simp [hc]
  · intro ev q h
    unfold processMention at h
    by_cases hc : trimSpaceStr (replaceAllStr ev.text ("<@" ++ ev.botID ++ ">") "") = ""
    · rw [if_pos hc] at h
      cases h
    · rw [if_neg hc] at h
      exact (Option.some.inj h).symm

/-- Witness for C5 at the concrete mid-text mention. -/
theorem mention_strip_amended_witness :
    ("hi  there" : String) =
      trimSpaceStr (replaceAllStr "hi <@B> there" ("<@" ++ "B" ++ ">") "") :=
  mention_strip_amended.2 { text := "hi <@B> there", botID := "B" } "hi  there" (by decide)

/-- C6 counterexample: a direct message whose text is the single space
`" "` is not dropped — the code checks only for the exactly-empty string —
so a task is submitted whose query text is empty after trimming. -/
theorem dm_whitespace_query_cex :
    processDirectMessage { text := " ", channelType := "im" } = some " " ∧
      trimSpaceStr " " = "" := by
  refine ⟨by decide, by decide⟩

/-- C6 amended: a task submitted from a mention event always carries a
trimmed, non-empty query; a task submitted from a direct message carries
the raw event text, which is non-empty as a string but may consist of
whitespace only (and then is empty after trimming). -/
theorem submitted_query_nonempty_amended :
    (∀ (ev : MentionEvent) (q : String),
        processMention ev = some q → trimSpaceStr q = q ∧ q ≠ "") ∧
      (∀ (ev : DMEvent) (q : String),
        processDirectMessage ev = some q → q ≠ "") := by
  constructor
  · intro ev q h
    unfold processMention at h
    by_cases hc : trimSpaceStr (replaceAllStr ev.text ("<@" ++ ev.botID ++ ">") "") = ""
    · rw [if_pos hc] at h
      cases h
    · rw [if_neg hc] at h
      obtain rfl := (Option.some.inj h).symm
      exact ⟨trimSpaceStr_idem _, hc⟩
  · intro ev q h
    unfold processDirectMessage at h
    by_cases h1 : ev.botID ≠ "" ∨ ev.text = ""
    · rw [if_pos h1] at h
      cases h
    · rw [if_neg h1] at h
      by_cases h2 : ev.channelType ≠ "im"
      · rw [if_pos h2] at h
        cases h
      · rw [if_neg h2] at h
        obtain rfl := (Option.some.inj h).symm
        exact fun hq => h1 (Or.inr hq)

/-- Witness for C6 at a concrete mention event. -/
theorem submitted_query_nonempty_amended_witness :
    trimSpaceStr "hi" = "hi" ∧ ("hi" : String) ≠ "" :=
  submitted_query_nonempty_amended.1 { text := " hi ", botID := "B" } "hi" (by decide)

/-- C8 counterexample: submitting to the pool after shutdown does not
deliver a `PoolClosed` error value to the caller — the channel send
panics. -/
theorem submit_after_shutdown_cex :
    poolSubmit (poolShutdown ⟨false⟩) = CallOutcome.panicCrash "send on closed channel" ∧
      ∀ e : PoolError, poolSubmit (poolShutdown ⟨false⟩) ≠ CallOutcome.errReturned e := by
  refine ⟨by decide, ?_⟩
  intro e
  cases e
  decide

/-- C8 amended: calling `Submit` after `Shutdown` never returns an error
value to the caller; it hits Go's "send on closed channel" run-time panic,
which nothing in the program recovers, so it is fatal to the whole process
— the pool included — rather than to the caller alone. -/
theorem submit_after_shutdown_amended :
    ∀ p : PoolChan,
      poolSubmit (poolShutdown p) = CallOutcome.panicCrash "send on closed channel" ∧
        ∀ e : PoolError, poolSubmit (poolShutdown p) ≠ CallOutcome.errReturned e := by
  intro p
  refine ⟨rfl, ?_⟩
  intro e h
  cases h

/-- C9: for a pool with `N ≥ 1` workers, in every run from the fresh pool,
once shutdown has returned — channel closed, queue drained, all workers
idle — the list of completed tasks is a permutation of the list of
submitted tasks: every submitted task ran exactly once and none was
dropped; moreover once the channel is closed no transition accepts a new
submission. -/
theorem pool_shutdown_runs_all_once (N : Nat) (_hN : 1 ≤ N) (s : PoolSt)
    (hreach : PoolReach N poolInit s) (hret : poolReturned s) :
    s.done.Perm s.submitted ∧
      (∀ u v : PoolSt, PoolStep N u v → u.accepting = false →
        v.submitted = u.submitted ∧ v.accepting = false) := by
  refine ⟨?_, fun u v hstep hacc => poolStep_closed hstep hacc⟩
  have h := poolReach_perm hreach
  obtain ⟨-, hq, hr⟩ := hret
  rw [hq, hr] at h
  simpa using h

/-- Witness for C9: a concrete run with one worker — submit task 7, close,
take it, finish it — after which shutdown's postcondition holds and the
completed list is a permutation of the submitted list. -/
theorem pool_shutdown_runs_all_once_witness :
    ([7] : List Nat).Perm [7] := by
  have h1 : PoolStep 1 poolInit ⟨true, [7], [], [], [7]⟩ :=
    PoolStep.submit poolInit 7 rfl
  have h2 : PoolStep 1 (⟨true, [7], [], [], [7]⟩ : PoolSt) ⟨false, [7], [], [], [7]⟩ :=
    PoolStep.close _
  have h3 : PoolStep 1 (⟨false, [7], [], [], [7]⟩ : PoolSt) ⟨false, [], [7], [], [7]⟩ :=
    PoolStep.take _ 7 [] rfl (by decide)
  have h4 : PoolStep 1 (⟨false, [], [7], [], [7]⟩ : PoolSt) ⟨false, [], [], [7], [7]⟩ :=
    PoolStep.finish _ 7 (by decide)
  have hreach : PoolReach 1 poolInit ⟨false, [], [], [7], [7]⟩ :=
    Relation.ReflTransGen.head h1 (Relation.ReflTransGen.head h2
      (Relation.ReflTransGen.head h3 (Relation.ReflTransGen.head h4
        Relation.ReflTransGen.refl)))
  exact (pool_shutdown_runs_all_once 1 (by decide) ⟨false, [], [], [7], [7]⟩
    hreach ⟨rfl, rfl, rfl⟩).1

end ChatRelay
